import Mathlib

/-!
# The laser tool head of g2core (`laser_toolhead.h`)

A shallow embedding of `class LaserTool` and of the collaborators its methods
touch, followed by theorems about the pause / resume / stop / engage state
machine and the enable output it drives, about construction and the binding
of the two outputs, and about the frequency of the PWM output.

* A pointer `gpioDigitalOutput *` is `Option (Fin n)`: `none` is `nullptr`,
  `some p` points at entry `p` of the output table `d_out`, which has `n`
  entries.
* Every method is a function on `Firmware n`, the tool together with the
  output table. A method that returns a value returns it paired with the
  state it leaves behind.
* The two binding methods index `d_out` with a number that the source does not
  range-check, so they return an `Option`: `none` stands for the access
  outside the table.
-/

set_option linter.dupNamespace false

namespace LaserToolhead

/-! ## Collaborator types -/

/-- Values of the C++ type `float`, by what they denote: a finite number, one
of the two infinities, or NaN. The special values follow IEEE 754. Finite
arithmetic is exact here: the rounding of binary32 is not modelled, so a
finite result stands for the program's result only where the exact result is
itself a binary32 value (see `float.sub`). -/
inductive float where
  | finite (q : ℚ)
  | infinite (negative : Bool)
  | nan
deriving DecidableEq

namespace float

/-- The literal `0`. -/
def zero : float := finite 0

/-- The C++ `a - b` on `float`, without the rounding of the finite case: the
difference of two finite values is their exact difference. Binary32 gives that
same value whenever the exact difference is representable, which it is for
equal operands (`x - x` is 0) and for two binary32 values within a factor of
two of each other; elsewhere the program's difference is the nearest binary32
value and may differ from the one here. The theorems of this file evaluate
`sub` on finite operands only at pairs of the first two kinds; every other
statement about `fp_EQ` takes its outcome as given. -/
def sub : float → float → float
  | nan, _ => nan
  | _, nan => nan
  | finite a, finite b => finite (a - b)
  | finite _, infinite s => infinite (!s)
  | infinite s, finite _ => infinite s
  | infinite s, infinite t => if s = t then nan else infinite s

/-- The C library `fabs`. -/
def fabs : float → float
  | finite a => finite (if a < 0 then -a else a)
  | infinite _ => infinite false
  | nan => nan

/-- The C++ `a < b` on `float`: false as soon as one side is NaN. -/
def lt : float → float → Bool
  | nan, _ => false
  | _, nan => false
  | finite a, finite b => decide (a < b)
  | finite _, infinite s => !s
  | infinite s, finite _ => s
  | infinite s, infinite t => s && !t

/-- True on the finite values only. -/
def isFinite : float → Bool
  | finite _ => true
  | _ => false

end float

/-- Modelled from the spec: the comparison `fp_EQ` comes from `util.h`, which is
not among the sources. The spec calls it an approximate, tolerance-based
equality on the floating-point speed, that is `fabs(a - b) < EPSILON`; the
tolerance `EPSILON` is left as a parameter. -/
def fp_EQ (EPSILON : ℚ) (a b : float) : Bool :=
  float.lt (float.fabs (float.sub a b)) (float.finite EPSILON)

/-- Modelled from the spec: the enumeration `spDirection` is declared in
`spindle.h`, which is not among the sources. The spec gives it three values,
OFF, FORWARD and REVERSE; the source names them `SPINDLE_OFF`, `SPINDLE_CW` and
`SPINDLE_CCW`. -/
inductive spDirection where
  | SPINDLE_OFF
  | SPINDLE_CW
  | SPINDLE_CCW
deriving DecidableEq, Repr

open spDirection

/-- Modelled from the spec: the gcode state record handed to `engage`, declared
outside the sources. Only the two fields that `engage` reads are kept. -/
structure GCodeState_t where
  spindle_direction : spDirection
  spindle_speed : float
deriving DecidableEq

/-- Modelled from the spec: the Digital Output collaborator (`gpioDigitalOutput`
is declared outside the sources): an enableable pin with a boolean value and a
settable frequency. `setValueLog` is a ghost field, the arguments of the
`setValue` calls received so far, newest first; it plays the part of the call
count of a mock. -/
structure gpioDigitalOutput where
  enabled : Bool
  value : Bool
  frequency : float
  setValueLog : List Bool
deriving DecidableEq

namespace gpioDigitalOutput

/-- The call `setEnabled(e)`. -/
def setEnabled (o : gpioDigitalOutput) (e : Bool) : gpioDigitalOutput :=
  { o with enabled := e }

/-- The call `setValue(v)`; the call is recorded in the ghost log. -/
def setValue (o : gpioDigitalOutput) (v : Bool) : gpioDigitalOutput :=
  { o with value := v, setValueLog := v :: o.setValueLog }

/-- The call `setFrequency(f)`. -/
def setFrequency (o : gpioDigitalOutput) (f : float) : gpioDigitalOutput :=
  { o with frequency := f }

/-- The call `getFrequency()`. -/
def getFrequency (o : gpioDigitalOutput) : float := o.frequency

end gpioDigitalOutput

/-! ## The tool -/

/-- The data members of `class LaserTool`, in the order of the source. The pin
numbers are `uint8_t` values. -/
structure LaserTool (n : Nat) where
  direction : spDirection
  speed : float
  speed_min : float
  speed_max : float
  paused : Bool
  pwm_output_num : Nat
  pwm_output : Option (Fin n)
  enable_output_num : Nat
  enable_output : Option (Fin n)

/-- The tool together with the table `d_out` of the `n` digital outputs its
pointers refer to. -/
structure Firmware (n : Nat) where
  tool : LaserTool n
  d_out : Fin n → gpioDigitalOutput

variable {n : Nat}

/-- The constructor `LaserTool::LaserTool`. It initialises the two pin numbers;
both pointers carry the default member initialiser `nullptr`. The members
`direction`, `speed`, `speed_min`, `speed_max` and `paused` have no initialiser
in the source, so the values they start with are arguments here. -/
def LaserTool.LaserTool (pwm_pin_number enable_pin_number : Nat)
    (direction0 : spDirection) (speed0 speed_min0 speed_max0 : float) (paused0 : Bool) :
    LaserTool n :=
  { direction := direction0
    speed := speed0
    speed_min := speed_min0
    speed_max := speed_max0
    paused := paused0
    pwm_output_num := pwm_pin_number
    pwm_output := none
    enable_output_num := enable_pin_number
    enable_output := none }

/-- The statement `enable_output->setValue(v)` for a non-null `enable_output`
pointing at entry `p`. -/
def enable_setValue (w : Firmware n) (p : Fin n) (v : Bool) : Firmware n :=
  { w with d_out := Function.update w.d_out p ((w.d_out p).setValue v) }

/-- The private method `LaserTool::complete_change`. -/
def complete_change (w : Firmware n) : Firmware n :=
  if w.tool.paused || w.tool.direction == SPINDLE_OFF then
    match w.tool.enable_output with
    | some p => enable_setValue w p false
    | none => w
  else if w.tool.direction == SPINDLE_CW then
    match w.tool.enable_output with
    | some p => enable_setValue w p true
    | none => w
  else if w.tool.direction == SPINDLE_CCW then
    match w.tool.enable_output with
    | some p => enable_setValue w p true
    | none => w
  else w

/-- The method `LaserTool::pause`. -/
def pause (w : Firmware n) : Firmware n :=
  if w.tool.paused then w
  else complete_change { w with tool := { w.tool with paused := true } }

/-- The method `LaserTool::resume`. -/
def resume (w : Firmware n) : Firmware n :=
  if !w.tool.paused then w
  else complete_change { w with tool := { w.tool with paused := false } }

/-- The method `LaserTool::ready_to_resume`; `ok_to_spindle` is the answer of
the safety manager. -/
def ready_to_resume (ok_to_spindle : Bool) (w : Firmware n) : Bool × Firmware n :=
  (w.tool.paused && ok_to_spindle, w)

/-- The method `LaserTool::get_speed`. -/
def get_speed (w : Firmware n) : float × Firmware n := (w.tool.speed, w)

/-- The method `LaserTool::get_direction`. -/
def get_direction (w : Firmware n) : spDirection × Firmware n := (w.tool.direction, w)

/-- The inline override `LaserTool::set_speed`. -/
def set_speed (_v : float) (w : Firmware n) : Bool × Firmware n := (false, w)

/-- The inline override `LaserTool::set_direction`. -/
def set_direction (_d : spDirection) (w : Firmware n) : Bool × Firmware n := (false, w)

/-- The method `LaserTool::stop`. -/
def stop (w : Firmware n) : Firmware n :=
  complete_change
    { w with tool := { w.tool with paused := false, speed := float.zero, direction := SPINDLE_OFF } }

/-- The method `LaserTool::engage`. -/
def engage (EPSILON : ℚ) (w : Firmware n) (gm : GCodeState_t) : Firmware n :=
  if (w.tool.direction == gm.spindle_direction) && fp_EQ EPSILON w.tool.speed gm.spindle_speed then
    w
  else
    complete_change
      { w with tool := { w.tool with speed := gm.spindle_speed, direction := gm.spindle_direction } }

/-- The method `LaserTool::is_on`. -/
def is_on (w : Firmware n) : Bool × Firmware n := (w.tool.direction != SPINDLE_OFF, w)

/-- The method `LaserTool::set_pwm_output`. The entry `d_out[pwm_pin_number - 1]`
is read without a range check; `none` is the access outside the table. -/
def set_pwm_output (pwm_pin_number : Nat) (w : Firmware n) : Option (Firmware n) :=
  if pwm_pin_number = 0 then
    some { w with tool := { w.tool with pwm_output := none } }
  else if h : pwm_pin_number - 1 < n then
    some { tool := { w.tool with pwm_output := some ⟨pwm_pin_number - 1, h⟩ }
           d_out := Function.update w.d_out ⟨pwm_pin_number - 1, h⟩
             ((w.d_out ⟨pwm_pin_number - 1, h⟩).setEnabled true) }
  else none

/-- The method `LaserTool::set_enable_output`, with the same unchecked table
access as `set_pwm_output`. -/
def set_enable_output (enable_pin_number : Nat) (w : Firmware n) : Option (Firmware n) :=
  if enable_pin_number = 0 then
    some { w with tool := { w.tool with enable_output := none } }
  else if h : enable_pin_number - 1 < n then
    some { tool := { w.tool with enable_output := some ⟨enable_pin_number - 1, h⟩ }
           d_out := Function.update w.d_out ⟨enable_pin_number - 1, h⟩
             ((w.d_out ⟨enable_pin_number - 1, h⟩).setEnabled true) }
  else none

/-- The method `LaserTool::init`. -/
def init (w : Firmware n) : Option (Firmware n) :=
  (set_pwm_output w.tool.pwm_output_num w).bind
    (fun w1 => set_enable_output w1.tool.enable_output_num w1)

/-- The method `LaserTool::set_frequency`. -/
def set_frequency (new_frequency : float) (w : Firmware n) : Firmware n :=
  match w.tool.pwm_output with
  | some p =>
    { w with d_out := Function.update w.d_out p ((w.d_out p).setFrequency new_frequency) }
  | none => w

/-- The method `LaserTool::get_frequency`. -/
def get_frequency (w : Firmware n) : float × Firmware n :=
  match w.tool.pwm_output with
  | some p => ((w.d_out p).getFrequency, w)
  | none => (float.zero, w)

/-- The inline setter `LaserTool::set_speed_min`. -/
def set_speed_min (new_speed_min : float) (w : Firmware n) : Firmware n :=
  { w with tool := { w.tool with speed_min := new_speed_min } }

/-- The inline getter `LaserTool::get_speed_min`. -/
def get_speed_min (w : Firmware n) : float × Firmware n := (w.tool.speed_min, w)

/-- The inline setter `LaserTool::set_speed_max`. -/
def set_speed_max (new_speed_max : float) (w : Firmware n) : Firmware n :=
  { w with tool := { w.tool with speed_max := new_speed_max } }

/-- The inline getter `LaserTool::get_speed_max`. -/
def get_speed_max (w : Firmware n) : float × Firmware n := (w.tool.speed_max, w)

/-! ## Sequences of calls and observations -/

/-- The four state-changing calls of the tool-head state machine. -/
inductive Call where
  | pause
  | resume
  | stop
  | engage (gm : GCodeState_t)

/-- One call applied to the firmware state. -/
def Call.apply (EPSILON : ℚ) (w : Firmware n) : Call → Firmware n
  | Call.pause => LaserToolhead.pause w
  | Call.resume => LaserToolhead.resume w
  | Call.stop => LaserToolhead.stop w
  | Call.engage gm => LaserToolhead.engage EPSILON w gm

/-- The states reached after each call of a sequence, in order. -/
def trace (EPSILON : ℚ) (w : Firmware n) : List Call → List (Firmware n)
  | [] => []
  | c :: cs => c.apply EPSILON w :: trace EPSILON (c.apply EPSILON w) cs

/-- The value of the output `enable_output` points at, when it is bound. -/
def enable_value (w : Firmware n) : Option Bool :=
  w.tool.enable_output.map (fun p => (w.d_out p).value)

/-- What the enable output is meant to show: `!paused && direction != OFF`. -/
def armed (w : Firmware n) : Bool :=
  !w.tool.paused && w.tool.direction != SPINDLE_OFF

/-! ## Example states -/

/-- An output that is disabled, low, at frequency zero, and has received no
`setValue` call. -/
def output_idle : gpioDigitalOutput :=
  { enabled := false, value := false, frequency := float.zero, setValueLog := [] }

/-- An output that is enabled and high. -/
def output_high : gpioDigitalOutput :=
  { enabled := true, value := true, frequency := float.zero, setValueLog := [] }

/-- Two outputs; the PWM output is entry 0 (pin 1), the enable output is entry 1
(pin 2); direction OFF, speed 0, not paused, both outputs low. -/
def example_initial : Firmware 2 :=
  { tool :=
      { direction := SPINDLE_OFF, speed := float.zero
        speed_min := float.zero, speed_max := float.zero, paused := false
        pwm_output_num := 1, pwm_output := some 0
        enable_output_num := 2, enable_output := some 1 }
    d_out := fun _ => output_idle }

/-- The state `example_initial` with `paused` set: direction OFF, enable output
low. -/
def example_paused : Firmware 2 :=
  { example_initial with tool := { example_initial.tool with paused := true } }

/-- A paused tool, direction CW, whose bound enable output (entry 1) is high. -/
def example_paused_high : Firmware 2 :=
  { tool := { example_initial.tool with paused := true, direction := SPINDLE_CW }
    d_out := fun _ => output_high }

/-- A running tool (direction CW, speed 500, not paused) with neither output
bound, over two outputs that are high. -/
def example_unbound : Firmware 2 :=
  { tool :=
      { direction := SPINDLE_CW, speed := float.finite 500
        speed_min := float.zero, speed_max := float.zero, paused := false
        pwm_output_num := 0, pwm_output := none
        enable_output_num := 0, enable_output := none }
    d_out := fun _ => output_high }

/-- The gcode state "clockwise at speed 500". -/
def gm_cw_500 : GCodeState_t :=
  { spindle_direction := SPINDLE_CW, spindle_speed := float.finite 500 }

/-- A running tool: direction CW, speed 500, not paused, the bound enable output
(entry 1) high. -/
def example_running : Firmware 2 :=
  { tool := { example_initial.tool with direction := SPINDLE_CW, speed := float.finite 500 }
    d_out := fun _ => output_high }

/-- A running tool: direction CW, speed 1, not paused, the bound enable output
(entry 1) high. -/
def example_running_unit : Firmware 2 :=
  { tool := { example_initial.tool with direction := SPINDLE_CW, speed := float.finite 1 }
    d_out := fun _ => output_high }

/-- The gcode state "clockwise at speed 1 + 2^-20". Both 1 and 1 + 2^-20 are
binary32 values, and so is their difference 2^-20: on this pair the exact
subtraction of `float.sub` is the program's subtraction. -/
def gm_cw_unit_near : GCodeState_t :=
  { spindle_direction := SPINDLE_CW, spindle_speed := float.finite (1 + 1 / 1048576) }

/-- The gcode state "clockwise" with a speed that is NaN. -/
def gm_cw_nan : GCodeState_t :=
  { spindle_direction := SPINDLE_CW, spindle_speed := float.nan }

/-- The gcode state "clockwise" with a speed that is plus infinity. -/
def gm_cw_inf : GCodeState_t :=
  { spindle_direction := SPINDLE_CW, spindle_speed := float.infinite false }

/-- A running tool (direction CW, speed 500, not paused) configured for PWM pin
1 and enable pin 2, with neither output bound yet, over two idle (low)
outputs. -/
def example_running_unbound : Firmware 2 :=
  { tool :=
      { direction := SPINDLE_CW, speed := float.finite 500
        speed_min := float.zero, speed_max := float.zero, paused := false
        pwm_output_num := 1, pwm_output := none
        enable_output_num := 2, enable_output := none }
    d_out := fun _ => output_idle }

/-- The state `example_initial` with the PWM pin and the enable pin both set to
pin 1, so that both pointers name entry 0. -/
def example_aliased : Firmware 2 :=
  { example_initial with
    tool := { example_initial.tool with
      pwm_output_num := 1, pwm_output := some 0
      enable_output_num := 1, enable_output := some 0 } }

/-- A tool constructed for PWM pin 1 and enable pin 2 in storage that held
direction OFF, speed 0 and `paused` true, over two idle outputs. -/
def example_constructed_paused : Firmware 2 :=
  { tool := LaserTool.LaserTool 1 2 SPINDLE_OFF float.zero float.zero float.zero true
    d_out := fun _ => output_idle }

/-- A tool constructed for PWM pin 1 and enable pin 2 in storage that held
direction CW, speed 500 and `paused` true, over two idle outputs. -/
def example_constructed_garbage : Firmware 2 :=
  { tool := LaserTool.LaserTool 1 2 SPINDLE_CW (float.finite 500) float.zero float.zero true
    d_out := fun _ => output_idle }

/-- A tool constructed for PWM pin 1 and enable pin 3 over a table of two
outputs. -/
def example_constructed_pin3 : Firmware 2 :=
  { tool := LaserTool.LaserTool 1 3 SPINDLE_OFF float.zero float.zero float.zero false
    d_out := fun _ => output_idle }

/-! ## Entry points run next to the safety manager -/

/-- The entry points of the tool that change state or consult the safety
manager. -/
inductive Method where
  | pause
  | resume
  | stop
  | engage (gm : GCodeState_t)
  | set_enable_output (pin : Nat)
  | set_pwm_output (pin : Nat)
  | ready_to_resume

/-- One entry point run while `safety_manager->ok_to_spindle()` would answer
`ok_to_spindle`. The answer is visible to every method, as the global
`safety_manager` is in the source; each method uses it as its body does. The
result is the boolean the method returns, when it returns one, and the state
it leaves; `none` is a table access out of range. -/
def Method.run (EPSILON : ℚ) (ok_to_spindle : Bool) (w : Firmware n) :
    Method → Option (Option Bool × Firmware n)
  | Method.pause => some (none, LaserToolhead.pause w)
  | Method.resume => some (none, LaserToolhead.resume w)
  | Method.stop => some (none, LaserToolhead.stop w)
  | Method.engage gm => some (none, LaserToolhead.engage EPSILON w gm)
  | Method.set_enable_output pin =>
    (LaserToolhead.set_enable_output pin w).map (fun w1 => (none, w1))
  | Method.set_pwm_output pin =>
    (LaserToolhead.set_pwm_output pin w).map (fun w1 => (none, w1))
  | Method.ready_to_resume =>
    some (some (LaserToolhead.ready_to_resume ok_to_spindle w).1,
      (LaserToolhead.ready_to_resume ok_to_spindle w).2)

/-! ## Lemmas on `complete_change` -/

lemma complete_change_tool (w : Firmware n) : (complete_change w).tool = w.tool := by
  unfold complete_change
  cases hp : w.tool.enable_output <;> cases hd : w.tool.direction <;>
    cases hq : w.tool.paused <;> simp [enable_setValue]

lemma complete_change_unbound (w : Firmware n) (h : w.tool.enable_output = none) :
    complete_change w = w := by
  unfold complete_change
  simp [h]

lemma complete_change_d_out (w : Firmware n) (p : Fin n) (h : w.tool.enable_output = some p) :
    (complete_change w).d_out = Function.update w.d_out p ((w.d_out p).setValue (armed w)) := by
  unfold complete_change armed
  cases hd : w.tool.direction <;> cases hq : w.tool.paused <;> simp [h, enable_setValue] <;> rfl

lemma enable_value_complete_change (w : Firmware n) (p : Fin n)
    (h : w.tool.enable_output = some p) :
    enable_value (complete_change w) = some (armed w) := by
  unfold enable_value
  rw [complete_change_tool, h, Option.map_some', complete_change_d_out w p h]
  simp [gpioDigitalOutput.setValue]

lemma armed_complete_change (w : Firmware n) : armed (complete_change w) = armed w := by
  unfold armed
  rw [complete_change_tool]

lemma call_preserves_tracking (EPSILON : ℚ) (w : Firmware n) (c : Call)
    (h : enable_value w = some (armed w)) :
    enable_value (c.apply EPSILON w) = some (armed (c.apply EPSILON w)) := by
  obtain ⟨p, hp⟩ : ∃ p, w.tool.enable_output = some p := by
    cases hq : w.tool.enable_output with
    | none => simp [enable_value, hq] at h
    | some p => exact ⟨p, rfl⟩
  cases c with
  | pause =>
    show enable_value (pause w) = some (armed (pause w))
    unfold pause
    split
    · exact h
    · rw [armed_complete_change]
      exact enable_value_complete_change _ p hp
  | resume =>
    show enable_value (resume w) = some (armed (resume w))
    unfold resume
    split
    · exact h
    · rw [armed_complete_change]
      exact enable_value_complete_change _ p hp
  | stop =>
    show enable_value (stop w) = some (armed (stop w))
    unfold stop
    rw [armed_complete_change]
    exact enable_value_complete_change _ p hp
  | engage gm =>
    show enable_value (engage EPSILON w gm) = some (armed (engage EPSILON w gm))
    unfold engage
    split
    · exact h
    · rw [armed_complete_change]
      exact enable_value_complete_change _ p hp

lemma trace_length (EPSILON : ℚ) (cs : List Call) :
    ∀ w : Firmware n, (trace EPSILON w cs).length = cs.length := by
  induction cs with
  | nil => intro w; rfl
  | cons c cs ih => intro w; simp [trace, ih]

lemma trace_preserves_tracking (EPSILON : ℚ) (cs : List Call) :
    ∀ w : Firmware n, enable_value w = some (armed w) →
      ∀ w1 ∈ trace EPSILON w cs, enable_value w1 = some (armed w1) := by
  induction cs with
  | nil => intro w _ w1 hw1; simp [trace] at hw1
  | cons c cs ih =>
    intro w h w1 hw1
    have hstep := call_preserves_tracking EPSILON w c h
    simp only [trace, List.mem_cons] at hw1
    rcases hw1 with rfl | hw1
    · exact hstep
    · exact ih _ hstep w1 hw1

/-- C1: in a state whose enable output is bound, if the value of the enable
output equals `!paused && direction != OFF`, it does so again after each of
`pause()`, `resume()`, `stop()` and `engage(gm)`; hence, started from the
initial state (direction OFF, not paused, enable value false), the equation
holds after every call of every finite sequence of these four calls. -/
theorem enable_output_tracks_state (EPSILON : ℚ) (w : Firmware n) (p : Fin n)
    (hbound : w.tool.enable_output = some p) :
    ((w.d_out p).value = (!w.tool.paused && w.tool.direction != SPINDLE_OFF) →
      ∀ c : Call, enable_value (c.apply EPSILON w)
        = some (!(c.apply EPSILON w).tool.paused
            && (c.apply EPSILON w).tool.direction != SPINDLE_OFF)) ∧
    (w.tool.direction = SPINDLE_OFF → w.tool.paused = false → (w.d_out p).value = false →
      ∀ cs : List Call, (trace EPSILON w cs).length = cs.length ∧
        ∀ w1 ∈ trace EPSILON w cs,
          enable_value w1 = some (!w1.tool.paused && w1.tool.direction != SPINDLE_OFF)) := by
  constructor
  · intro hv c
    exact call_preserves_tracking EPSILON w c (by simp [enable_value, hbound, armed, hv])
  · intro hd hq hv cs
    refine ⟨trace_length EPSILON cs w, ?_⟩
    exact trace_preserves_tracking EPSILON cs w (by simp [enable_value, hbound, armed, hv, hd, hq])


/-- C1 at the two-output example: from the initial state, the enable output
tracks the state after each call of engage, pause, resume, stop. -/
theorem enable_output_tracks_state_witness :
    example_initial.tool.enable_output = some 1 ∧
    (trace (1 / 100000) example_initial
        [Call.engage gm_cw_500, Call.pause, Call.resume, Call.stop]).length = 4 ∧
    ∀ w1 ∈ trace (1 / 100000) example_initial
        [Call.engage gm_cw_500, Call.pause, Call.resume, Call.stop],
      enable_value w1 = some (!w1.tool.paused && w1.tool.direction != SPINDLE_OFF) :=
  ⟨rfl, (enable_output_tracks_state (1 / 100000) example_initial 1 rfl).2 rfl rfl rfl
    [Call.engage gm_cw_500, Call.pause, Call.resume, Call.stop]⟩

/-- C2: whatever the prior state, after `stop()` the direction is OFF, the speed
is 0 and `paused` is false, and an enable output that is bound has value
false. -/
theorem stop_resets (w : Firmware n) :
    (stop w).tool.direction = SPINDLE_OFF ∧
    (stop w).tool.speed = float.finite 0 ∧
    (stop w).tool.paused = false ∧
    ∀ p : Fin n, (stop w).tool.enable_output = some p → ((stop w).d_out p).value = false := by
  unfold stop
  rw [complete_change_tool]
  refine ⟨rfl, rfl, rfl, ?_⟩
  intro p hp
  rw [complete_change_d_out _ p hp]
  simp [gpioDigitalOutput.setValue, armed]

/-- C2 at a paused tool, direction CW, whose enable output is high. -/
theorem stop_resets_witness :
    (stop example_paused_high).tool.direction = SPINDLE_OFF ∧
    (stop example_paused_high).tool.speed = float.finite 0 ∧
    (stop example_paused_high).tool.paused = false ∧
    ((stop example_paused_high).d_out 1).value = false :=
  ⟨(stop_resets example_paused_high).1, (stop_resets example_paused_high).2.1,
    (stop_resets example_paused_high).2.2.1, (stop_resets example_paused_high).2.2.2 1 rfl⟩

/-- C3: while the tool is paused and its enable output is bound, `engage(gm)`
never sets the enable output to true: either the call touches no output at all,
or the one `setValue` call it issues to the enable output carries false and the
output's value is false afterwards. -/
theorem engage_paused_keeps_fire_off (EPSILON : ℚ) (w : Firmware n) (p : Fin n)
    (gm : GCodeState_t) (hpaused : w.tool.paused = true)
    (hbound : w.tool.enable_output = some p) :
    (engage EPSILON w gm).tool.enable_output = some p ∧
    ((engage EPSILON w gm).d_out = w.d_out ∨
      (((engage EPSILON w gm).d_out p).setValueLog = false :: (w.d_out p).setValueLog ∧
        ((engage EPSILON w gm).d_out p).value = false)) := by
  unfold engage
  split
  · exact ⟨hbound, Or.inl rfl⟩
  · refine ⟨by rw [complete_change_tool]; exact hbound, Or.inr ?_⟩
    rw [complete_change_d_out (p := p)]
    · simp [gpioDigitalOutput.setValue, armed, hpaused]
    · exact hbound

/-- C3 at the paused example, engaged clockwise at speed 500. -/
theorem engage_paused_keeps_fire_off_witness :
    (engage (1 / 100000) example_paused gm_cw_500).d_out = example_paused.d_out ∨
      (((engage (1 / 100000) example_paused gm_cw_500).d_out 1).setValueLog
          = false :: (example_paused.d_out 1).setValueLog ∧
        ((engage (1 / 100000) example_paused gm_cw_500).d_out 1).value = false) :=
  (engage_paused_keeps_fire_off (1 / 100000) example_paused 1 gm_cw_500 rfl rfl).2

/-- C4, counterexample: on a paused tool with direction OFF and speed 0,
`engage` with direction CW and speed 500 stores the new direction and speed, yet
the bound enable output stays false although the new direction is not OFF.
Moreover, with tolerance 1/100000, a running tool at speed 1 keeps its stored
speed when `engage` carries the same direction and the unequal speed
1 + 2^-20. -/
theorem engage_enable_iff_direction_counterexample :
    (example_paused.tool.enable_output = some 1 ∧
      example_paused.tool.direction ≠ gm_cw_500.spindle_direction ∧
      (engage (1 / 100000) example_paused gm_cw_500).tool.direction = SPINDLE_CW ∧
      gm_cw_500.spindle_direction ≠ SPINDLE_OFF ∧
      ((engage (1 / 100000) example_paused gm_cw_500).d_out 1).value = false) ∧
    (example_running_unit.tool.enable_output = some 1 ∧
      example_running_unit.tool.speed ≠ gm_cw_unit_near.spindle_speed ∧
      (engage (1 / 100000) example_running_unit gm_cw_unit_near).tool.speed = float.finite 1 ∧
      (engage (1 / 100000) example_running_unit gm_cw_unit_near).tool.speed
        ≠ gm_cw_unit_near.spindle_speed) := by
  have hne : float.finite 1 ≠ float.finite (1 + 1 / 1048576) := by
    intro h
    injection h with h
    norm_num at h
  have hsame :
      engage (1 / 100000) example_running_unit gm_cw_unit_near = example_running_unit := by
    unfold engage
    rw [if_pos]
    simp only [example_running_unit, gm_cw_unit_near, fp_EQ, float.sub, float.fabs, float.lt]
    norm_num
  refine ⟨⟨rfl, by decide, by decide, by decide, by decide⟩, rfl, hne, ?_, ?_⟩
  · rw [hsame]
    rfl
  · rw [hsame]
    exact hne

/-- C4, amended: in a state whose enable output is bound, when `gm` differs from
the stored direction and speed in the test of `engage` (the directions are
unequal, or the speeds are not `fp_EQ`), after `engage(gm)` the stored direction
and speed are those of `gm`, `paused` is unchanged, and the enable output's
value is true if and only if the tool is not paused and the direction of `gm` is
not OFF. -/
theorem engage_stores_and_drives_enable (EPSILON : ℚ) (w : Firmware n) (p : Fin n)
    (gm : GCodeState_t) (hbound : w.tool.enable_output = some p)
    (hdiff : w.tool.direction ≠ gm.spindle_direction ∨
      fp_EQ EPSILON w.tool.speed gm.spindle_speed = false) :
    (engage EPSILON w gm).tool.direction = gm.spindle_direction ∧
    (engage EPSILON w gm).tool.speed = gm.spindle_speed ∧
    (engage EPSILON w gm).tool.paused = w.tool.paused ∧
    (engage EPSILON w gm).tool.enable_output = some p ∧
    (((engage EPSILON w gm).d_out p).value = true ↔
      (w.tool.paused = false ∧ gm.spindle_direction ≠ SPINDLE_OFF)) := by
  have hcond : ((w.tool.direction == gm.spindle_direction)
      && fp_EQ EPSILON w.tool.speed gm.spindle_speed) = false := by
    rcases hdiff with hd | hs
    · simp [hd]
    · simp [hs]
  unfold engage
  rw [hcond]
  simp only [Bool.false_eq_true, if_false]
  rw [complete_change_tool]
  refine ⟨rfl, rfl, rfl, hbound, ?_⟩
  rw [complete_change_d_out (p := p)]
  · simp [gpioDigitalOutput.setValue, armed]
  · exact hbound

/-- C4 as amended, at the initial example engaged clockwise at speed 500. -/
theorem engage_stores_and_drives_enable_witness :
    (engage (1 / 100000) example_initial gm_cw_500).tool.direction = SPINDLE_CW ∧
    (engage (1 / 100000) example_initial gm_cw_500).tool.speed = float.finite 500 ∧
    (engage (1 / 100000) example_initial gm_cw_500).tool.paused = false ∧
    (engage (1 / 100000) example_initial gm_cw_500).tool.enable_output = some 1 ∧
    (((engage (1 / 100000) example_initial gm_cw_500).d_out 1).value = true ↔
      (example_initial.tool.paused = false ∧ gm_cw_500.spindle_direction ≠ SPINDLE_OFF)) :=
  engage_stores_and_drives_enable (1 / 100000) example_initial 1 gm_cw_500 rfl
    (Or.inl (by decide))

/-! ## Idempotence of `engage` -/

lemma fp_EQ_self (EPSILON : ℚ) (hEPS : 0 < EPSILON) (x : float) (hx : x.isFinite = true) :
    fp_EQ EPSILON x x = true := by
  cases x with
  | finite q => simp [fp_EQ, float.sub, float.fabs, float.lt, hEPS]
  | infinite s => simp [float.isFinite] at hx
  | nan => simp [float.isFinite] at hx

/-- C5, counterexample: with a speed that is NaN the second of two equal
`engage` calls does not take the "nothing changed" branch: it issues a second
`setValue` call to the enable output. The same happens with an infinite
speed. -/
theorem engage_idempotent_counterexample :
    ((engage (1 / 100000) example_initial gm_cw_nan).d_out 1).setValueLog = [true] ∧
    ((engage (1 / 100000) (engage (1 / 100000) example_initial gm_cw_nan) gm_cw_nan).d_out 1).setValueLog
      = [true, true] ∧
    engage (1 / 100000) (engage (1 / 100000) example_initial gm_cw_nan) gm_cw_nan
      ≠ engage (1 / 100000) example_initial gm_cw_nan ∧
    ((engage (1 / 100000) example_initial gm_cw_inf).d_out 1).setValueLog = [true] ∧
    ((engage (1 / 100000) (engage (1 / 100000) example_initial gm_cw_inf) gm_cw_inf).d_out 1).setValueLog
      = [true, true] := by
  have h1 : ((engage (1 / 100000) example_initial gm_cw_nan).d_out 1).setValueLog = [true] := by
    decide
  have h2 : ((engage (1 / 100000) (engage (1 / 100000) example_initial gm_cw_nan)
      gm_cw_nan).d_out 1).setValueLog = [true, true] := by
    decide
  refine ⟨h1, h2, ?_, by decide, by decide⟩
  intro h
  rw [h, h1] at h2
  exact absurd h2 (by decide)

/-- C5, amended: for a positive tolerance and a `gm` whose speed is a finite
number, `engage(gm)` applied to the result of `engage(gm)` changes nothing: the
tool state is the same and no output receives a call, the `setValue` logs
included. -/
theorem engage_idempotent (EPSILON : ℚ) (hEPS : 0 < EPSILON) (w : Firmware n)
    (gm : GCodeState_t) (hfinite : gm.spindle_speed.isFinite = true) :
    engage EPSILON (engage EPSILON w gm) gm = engage EPSILON w gm := by
  have hself := fp_EQ_self EPSILON hEPS gm.spindle_speed hfinite
  by_cases hc : ((w.tool.direction == gm.spindle_direction)
      && fp_EQ EPSILON w.tool.speed gm.spindle_speed) = true
  · have h1 : engage EPSILON w gm = w := by
      unfold engage
      rw [if_pos hc]
    rw [h1, h1]
  · generalize hw1 : engage EPSILON w gm = w1
    have htool : w1.tool.direction = gm.spindle_direction ∧
        w1.tool.speed = gm.spindle_speed := by
      rw [← hw1]
      unfold engage
      rw [if_neg hc, complete_change_tool]
      exact ⟨rfl, rfl⟩
    unfold engage
    rw [if_pos (by simp [htool.1, htool.2, hself])]

/-- C5 as amended, at the initial example engaged clockwise at speed 500 with
tolerance 1/100000. -/
theorem engage_idempotent_witness :
    engage (1 / 100000) (engage (1 / 100000) example_initial gm_cw_500) gm_cw_500
      = engage (1 / 100000) example_initial gm_cw_500 :=
  engage_idempotent (1 / 100000) (by norm_num) example_initial gm_cw_500 rfl

/-! ## Queries and rejected setters -/

/-- C6: `ready_to_resume()` returns `paused && g`, where `g` is the answer of the
safety gate; it is true exactly when the tool is paused and the gate reports
true, and the call leaves the tool and every output as they were. -/
theorem ready_to_resume_paused_and_gate (g : Bool) (w : Firmware n) :
    (ready_to_resume g w).1 = (w.tool.paused && g) ∧
    ((ready_to_resume g w).1 = true ↔ (w.tool.paused = true ∧ g = true)) ∧
    (ready_to_resume g w).2 = w := by
  refine ⟨rfl, ?_, rfl⟩
  simp [ready_to_resume]

/-- C7: `is_on()` equals `direction != OFF` whatever `paused` is: changing only
`paused` does not change the result, and after `pause()` on a state with
direction CW or CCW the result is still true. -/
theorem is_on_independent_of_paused (w : Firmware n) :
    (is_on w).1 = (w.tool.direction != SPINDLE_OFF) ∧
    (∀ b : Bool, (is_on { w with tool := { w.tool with paused := b } }).1 = (is_on w).1) ∧
    (w.tool.direction = SPINDLE_CW ∨ w.tool.direction = SPINDLE_CCW →
      (is_on (pause w)).1 = true) := by
  refine ⟨rfl, fun _ => rfl, ?_⟩
  intro hd
  have htool : (pause w).tool.direction = w.tool.direction := by
    unfold pause
    split
    · rfl
    · rw [complete_change_tool]
  show ((pause w).tool.direction != SPINDLE_OFF) = true
  rw [htool]
  rcases hd with hd | hd <;> rw [hd] <;> rfl

/-- C7 at the example engaged clockwise and then paused. -/
theorem is_on_independent_of_paused_witness :
    (is_on (pause (engage (1 / 100000) example_initial gm_cw_500))).1 = true :=
  (is_on_independent_of_paused (engage (1 / 100000) example_initial gm_cw_500)).2.2
    (Or.inl (by decide))

/-- C8: `set_speed(v)` and `set_direction(d)` return false and change nothing:
direction, speed, `paused`, the two bindings and every output are as before. -/
theorem set_speed_set_direction_rejected (v : float) (d : spDirection) (w : Firmware n) :
    (set_speed v w).1 = false ∧ (set_speed v w).2 = w ∧
    (set_direction d w).1 = false ∧ (set_direction d w).2 = w :=
  ⟨rfl, rfl, rfl, rfl⟩

/-! ## Pause -/

/-- C9, counterexample: a tool that is already paused and whose bound enable
output is high keeps that output high across `pause()`. -/
theorem pause_forces_enable_off_counterexample :
    example_paused_high.tool.enable_output = some 1 ∧
    (pause example_paused_high).tool.paused = true ∧
    ((pause example_paused_high).d_out 1).value = true := by
  decide

/-- C9, amended: in a state whose enable output is bound, after `pause()` the
tool is paused; if it was not paused before, the enable output's value is false
after the call; if it was already paused, the call changes nothing. -/
theorem pause_sets_paused (w : Firmware n) (p : Fin n)
    (hbound : w.tool.enable_output = some p) :
    (pause w).tool.paused = true ∧
    (pause w).tool.enable_output = some p ∧
    (w.tool.paused = false → ((pause w).d_out p).value = false) ∧
    (w.tool.paused = true → pause w = w) := by
  cases hq : w.tool.paused
  · have hp : pause w = complete_change { w with tool := { w.tool with paused := true } } := by
      unfold pause
      rw [if_neg (by simp [hq])]
    rw [hp, complete_change_tool]
    refine ⟨rfl, hbound, ?_, ?_⟩
    · intro _
      rw [complete_change_d_out (p := p)]
      · simp [gpioDigitalOutput.setValue, armed]
      · exact hbound
    · intro h
      exact absurd h (by decide)
  · have hp : pause w = w := by
      unfold pause
      rw [if_pos hq]
    rw [hp]
    exact ⟨hq, hbound, fun h => absurd h (by decide), fun _ => rfl⟩

/-- C9 as amended, at the example engaged clockwise: pausing it drives the
enable output low. -/
theorem pause_sets_paused_witness :
    (pause (engage (1 / 100000) example_initial gm_cw_500)).tool.paused = true ∧
    ((pause (engage (1 / 100000) example_initial gm_cw_500)).d_out 1).value = false :=
  ⟨(pause_sets_paused (engage (1 / 100000) example_initial gm_cw_500) 1 rfl).1,
    (pause_sets_paused (engage (1 / 100000) example_initial gm_cw_500) 1 rfl).2.2.1 rfl⟩

/-! ## Unbound outputs -/

/-- C10: with the enable output unbound, each of `pause()`, `resume()`, `stop()`
and `engage(gm)` returns and leaves the whole output table as it was (enabled
flags, values, frequencies and call logs); with the PWM output unbound,
`set_frequency(f)` changes nothing. Binding pin 0 is what unbinds: it succeeds
and touches no output. -/
theorem unbound_outputs_untouched (EPSILON : ℚ) (w : Firmware n) :
    (w.tool.enable_output = none → ∀ c : Call, (c.apply EPSILON w).d_out = w.d_out) ∧
    (w.tool.pwm_output = none → ∀ f : float, set_frequency f w = w) ∧
    (∃ w1, set_enable_output 0 w = some w1 ∧ w1.tool.enable_output = none ∧
      w1.d_out = w.d_out ∧ ∀ c : Call, (c.apply EPSILON w1).d_out = w.d_out) ∧
    (∃ w2, set_pwm_output 0 w = some w2 ∧ w2.tool.pwm_output = none ∧
      w2.d_out = w.d_out ∧ ∀ f : float, set_frequency f w2 = w2) := by
  have hcc : ∀ w1 : Firmware n, w1.tool.enable_output = none →
      (complete_change w1).d_out = w1.d_out := by
    intro w1 h1
    rw [complete_change_unbound w1 h1]
  have hcalls : ∀ w0 : Firmware n, w0.tool.enable_output = none →
      ∀ c : Call, (c.apply EPSILON w0).d_out = w0.d_out := by
    intro w0 h0 c
    cases c with
    | pause =>
      show (pause w0).d_out = w0.d_out
      unfold pause
      split
      · rfl
      · exact hcc _ (by exact h0)
    | resume =>
      show (resume w0).d_out = w0.d_out
      unfold resume
      split
      · rfl
      · exact hcc _ (by exact h0)
    | stop =>
      show (stop w0).d_out = w0.d_out
      unfold stop
      exact hcc _ (by exact h0)
    | engage gm =>
      show (engage EPSILON w0 gm).d_out = w0.d_out
      unfold engage
      split
      · rfl
      · exact hcc _ (by exact h0)
  have hfreq : ∀ w0 : Firmware n, w0.tool.pwm_output = none →
      ∀ f : float, set_frequency f w0 = w0 := by
    intro w0 h0 f
    unfold set_frequency
    rw [h0]
  refine ⟨hcalls w, hfreq w, ?_, ?_⟩
  · refine ⟨{ w with tool := { w.tool with enable_output := none } }, ?_, rfl, rfl, ?_⟩
    · simp [set_enable_output]
    · exact hcalls _ rfl
  · refine ⟨{ w with tool := { w.tool with pwm_output := none } }, ?_, rfl, rfl, ?_⟩
    · simp [set_pwm_output]
    · exact hfreq _ rfl

/-- C10 at a running tool with neither output bound. -/
theorem unbound_outputs_untouched_witness :
    (∀ c : Call, (c.apply (1 / 100000) example_unbound).d_out = example_unbound.d_out) ∧
    (∀ f : float, set_frequency f example_unbound = example_unbound) :=
  ⟨(unbound_outputs_untouched (1 / 100000) example_unbound).1 rfl,
    (unbound_outputs_untouched (1 / 100000) example_unbound).2.1 rfl⟩

/-! ## Binding without a range check -/

/-- C11, evaluated where it fails: on a table of two outputs, binding pin 3
reads `d_out[2]`, outside the table, in `set_enable_output`, in `set_pwm_output`
and in `init()` of a tool constructed with enable pin 3; for every table size
`n` the pin `n + 1` is out of range in the same way. Pin 0 and the pins up to
the table size do yield a state. -/
theorem binding_out_of_range_fails :
    set_enable_output 3 example_initial = none ∧
    set_pwm_output 3 example_initial = none ∧
    init example_constructed_pin3 = none ∧
    (∀ (m : Nat) (w : Firmware m),
      set_enable_output (m + 1) w = none ∧ set_pwm_output (m + 1) w = none) ∧
    (∀ (m pin : Nat) (w : Firmware m), pin ≤ m →
      (set_enable_output pin w).isSome = true ∧ (set_pwm_output pin w).isSome = true) := by
  refine ⟨rfl, rfl, rfl, ?_, ?_⟩
  · intro m w
    simp [set_enable_output, set_pwm_output]
  · intro m pin w hpin
    by_cases h0 : pin = 0
    · simp [set_enable_output, set_pwm_output, h0]
    · have hlt : pin - 1 < m := by omega
      simp [set_enable_output, set_pwm_output, h0, hlt]

/-! ## The scenario of the spec -/

/-- C12, evaluated: a tool constructed for PWM pin 1 and enable pin 2 in zeroed
storage (direction OFF, speed 0, not paused), over any table of at least two
outputs, runs the scenario as the claim tells it: `init()` enables both
outputs, `engage({CW, 500})` drives the enable output true, `pause()` drives it
false with `is_on()` still true, `ready_to_resume()` is true under a gate that
reports true, `resume()` drives it true again, and `stop()` leaves it false
with `is_on()` false and speed 0. The constructor does not set `paused`: when
the storage held `paused` true, the same `engage` leaves the enable output
false. -/
theorem scenario_depends_on_initial_storage (EPSILON : ℚ) (m : Nat)
    (d : Fin (m + 2) → gpioDigitalOutput) (speed_min0 speed_max0 : float) :
    (∃ w1 : Firmware (m + 2),
      init { tool := LaserTool.LaserTool 1 2 SPINDLE_OFF float.zero speed_min0 speed_max0 false
             d_out := d } = some w1 ∧
      (w1.d_out ⟨0, by omega⟩).enabled = true ∧
      (w1.d_out ⟨1, by omega⟩).enabled = true ∧
      w1.tool.pwm_output = some ⟨0, by omega⟩ ∧
      w1.tool.enable_output = some ⟨1, by omega⟩ ∧
      ((engage EPSILON w1 gm_cw_500).d_out ⟨1, by omega⟩).value = true ∧
      ((pause (engage EPSILON w1 gm_cw_500)).d_out ⟨1, by omega⟩).value = false ∧
      (is_on (pause (engage EPSILON w1 gm_cw_500))).1 = true ∧
      (ready_to_resume true (pause (engage EPSILON w1 gm_cw_500))).1 = true ∧
      ((resume (pause (engage EPSILON w1 gm_cw_500))).d_out ⟨1, by omega⟩).value = true ∧
      ((stop (resume (pause (engage EPSILON w1 gm_cw_500)))).d_out ⟨1, by omega⟩).value = false ∧
      (is_on (stop (resume (pause (engage EPSILON w1 gm_cw_500))))).1 = false ∧
      (get_speed (stop (resume (pause (engage EPSILON w1 gm_cw_500))))).1 = float.finite 0) ∧
    (init example_constructed_paused).map
        (fun w1 => ((engage EPSILON w1 gm_cw_500).d_out 1).value) = some false := by
  constructor
  · have h0 : (0 : Nat) < m + 2 := by omega
    have h1 : (1 : Nat) < m + 2 := by omega
    have hne : (⟨1, h1⟩ : Fin (m + 2)) ≠ ⟨0, h0⟩ := by
      intro h
      have hval : (1 : Nat) = 0 := congrArg Fin.val h
      exact absurd hval (by decide)
    refine ⟨{ tool := { (LaserTool.LaserTool 1 2 SPINDLE_OFF float.zero speed_min0 speed_max0
                false : LaserTool (m + 2)) with
                pwm_output := some ⟨0, h0⟩, enable_output := some ⟨1, h1⟩ }
              d_out := Function.update (Function.update d ⟨0, h0⟩ ((d ⟨0, h0⟩).setEnabled true))
                ⟨1, h1⟩ ((d ⟨1, h1⟩).setEnabled true) }, ?_, ?_⟩
    · simp [init, set_pwm_output, set_enable_output, LaserTool.LaserTool, hne]
    · simp [engage, pause, resume, stop, is_on, get_speed, ready_to_resume, complete_change,
        enable_setValue, gm_cw_500, LaserTool.LaserTool, gpioDigitalOutput.setValue,
        gpioDigitalOutput.setEnabled, float.zero, hne]
  · simp [init, set_pwm_output, set_enable_output, example_constructed_paused, engage,
      complete_change, enable_setValue, gm_cw_500, LaserTool.LaserTool,
      gpioDigitalOutput.setValue]

/-! ## The binding calls -/

lemma set_enable_output_bound (pin : Nat) (w : Firmware n) (hpin : pin ≠ 0)
    (hrange : pin - 1 < n) :
    set_enable_output pin w =
      some { tool := { w.tool with enable_output := some ⟨pin - 1, hrange⟩ }
             d_out := Function.update w.d_out ⟨pin - 1, hrange⟩
               ((w.d_out ⟨pin - 1, hrange⟩).setEnabled true) } := by
  simp [set_enable_output, hpin, hrange]

lemma set_pwm_output_bound (pin : Nat) (w : Firmware n) (hpin : pin ≠ 0)
    (hrange : pin - 1 < n) :
    set_pwm_output pin w =
      some { tool := { w.tool with pwm_output := some ⟨pin - 1, hrange⟩ }
             d_out := Function.update w.d_out ⟨pin - 1, hrange⟩
               ((w.d_out ⟨pin - 1, hrange⟩).setEnabled true) } := by
  simp [set_pwm_output, hpin, hrange]

lemma set_pwm_output_frame (pin : Nat) (w w1 : Firmware n)
    (h : set_pwm_output pin w = some w1) :
    w1.tool.direction = w.tool.direction ∧ w1.tool.paused = w.tool.paused ∧
    w1.tool.enable_output_num = w.tool.enable_output_num ∧
    ∀ q : Fin n, (w1.d_out q).value = (w.d_out q).value := by
  unfold set_pwm_output at h
  split at h
  · cases h
    exact ⟨rfl, rfl, rfl, fun _ => rfl⟩
  · split at h
    · cases h
      refine ⟨rfl, rfl, rfl, fun q => ?_⟩
      by_cases hq : q = ⟨pin - 1, by assumption⟩
      · subst hq
        simp [gpioDigitalOutput.setEnabled]
      · simp [Function.update_noteq hq]
    · cases h

/-- C13, counterexample: a running tool (direction CW, not paused) binds its
enable output to pin 2, whose output is low: after `set_enable_output(2)`, and
likewise after `init()`, the newly bound enable output is still low although
`!paused && direction != OFF` is true. -/
theorem binding_establishes_relation_counterexample :
    (set_enable_output 2 example_running_unbound).map (fun w1 => (enable_value w1, armed w1))
      = some (some false, true) ∧
    (init example_running_unbound).map (fun w1 => (enable_value w1, armed w1))
      = some (some false, true) := by
  constructor <;> decide

/-- C13, amended: for a valid non-zero pin, `set_enable_output(pin)` and
`init()` bind the enable output to entry `pin - 1`, enable it and leave its
value as it was; so after the call the value of the newly bound enable output
equals `!paused && direction != OFF` exactly when the value that output had
before the call did. -/
theorem binding_keeps_enable_value (pin : Nat) (w : Firmware n) (hpin : pin ≠ 0)
    (hrange : pin - 1 < n) :
    (∃ w1, set_enable_output pin w = some w1 ∧
      w1.tool.enable_output = some ⟨pin - 1, hrange⟩ ∧
      (w1.d_out ⟨pin - 1, hrange⟩).enabled = true ∧
      (w1.d_out ⟨pin - 1, hrange⟩).value = (w.d_out ⟨pin - 1, hrange⟩).value ∧
      (enable_value w1 = some (!w1.tool.paused && w1.tool.direction != SPINDLE_OFF) ↔
        (w.d_out ⟨pin - 1, hrange⟩).value
          = (!w.tool.paused && w.tool.direction != SPINDLE_OFF))) ∧
    (w.tool.enable_output_num = pin →
      (w.tool.pwm_output_num = 0 ∨ w.tool.pwm_output_num - 1 < n) →
      ∃ w2, init w = some w2 ∧
        w2.tool.enable_output = some ⟨pin - 1, hrange⟩ ∧
        (w2.d_out ⟨pin - 1, hrange⟩).enabled = true ∧
        (w2.d_out ⟨pin - 1, hrange⟩).value = (w.d_out ⟨pin - 1, hrange⟩).value ∧
        (enable_value w2 = some (!w2.tool.paused && w2.tool.direction != SPINDLE_OFF) ↔
          (w.d_out ⟨pin - 1, hrange⟩).value
            = (!w.tool.paused && w.tool.direction != SPINDLE_OFF))) := by
  have key : ∀ w0 : Firmware n, ∃ w1, set_enable_output pin w0 = some w1 ∧
      w1.tool.enable_output = some ⟨pin - 1, hrange⟩ ∧
      (w1.d_out ⟨pin - 1, hrange⟩).enabled = true ∧
      (w1.d_out ⟨pin - 1, hrange⟩).value = (w0.d_out ⟨pin - 1, hrange⟩).value ∧
      w1.tool.paused = w0.tool.paused ∧ w1.tool.direction = w0.tool.direction := by
    intro w0
    refine ⟨_, set_enable_output_bound pin w0 hpin hrange, rfl, ?_, ?_, rfl, rfl⟩
    · simp [gpioDigitalOutput.setEnabled]
    · simp [gpioDigitalOutput.setEnabled]
  constructor
  · obtain ⟨w1, h1, hb, he, hv, hq, hd⟩ := key w
    refine ⟨w1, h1, hb, he, hv, ?_⟩
    simp [enable_value, hb, hv, hq, hd]
  · intro hnum hpwm
    have hsome : ∃ w0, set_pwm_output w.tool.pwm_output_num w = some w0 := by
      rcases hpwm with h0 | hlt
      · exact ⟨{ w with tool := { w.tool with pwm_output := none } },
          by simp [set_pwm_output, h0]⟩
      · by_cases h0 : w.tool.pwm_output_num = 0
        · exact ⟨{ w with tool := { w.tool with pwm_output := none } },
            by simp [set_pwm_output, h0]⟩
        · exact ⟨_, set_pwm_output_bound _ w h0 hlt⟩
    obtain ⟨w0, hw0⟩ := hsome
    obtain ⟨hd0, hq0, hn0, hv0⟩ := set_pwm_output_frame _ w w0 hw0
    obtain ⟨w2, h2, hb, he, hv, hq, hd⟩ := key w0
    refine ⟨w2, ?_, hb, he, ?_, ?_⟩
    · unfold init
      rw [hw0, Option.some_bind, hn0, hnum]
      exact h2
    · rw [hv, hv0]
    · simp [enable_value, hb, hv, hv0, hq, hd, hq0, hd0]

/-- C13 as amended, at a running tool that binds pin 2 to a low output. -/
theorem binding_keeps_enable_value_witness :
    ∃ w1, set_enable_output 2 example_running_unbound = some w1 ∧
      w1.tool.enable_output = some ⟨2 - 1, by decide⟩ ∧
      (w1.d_out ⟨2 - 1, by decide⟩).enabled = true ∧
      (w1.d_out ⟨2 - 1, by decide⟩).value
        = (example_running_unbound.d_out ⟨2 - 1, by decide⟩).value ∧
      (enable_value w1 = some (!w1.tool.paused && w1.tool.direction != SPINDLE_OFF) ↔
        (example_running_unbound.d_out ⟨2 - 1, by decide⟩).value
          = (!example_running_unbound.tool.paused
              && example_running_unbound.tool.direction != SPINDLE_OFF)) :=
  (binding_keeps_enable_value 2 example_running_unbound (by decide) (by decide)).1

/-- C14: `set_enable_output(p)` and `set_pwm_output(p)` with `p == 0` clear the
pointer and change nothing else; with `p != 0` and `p - 1` inside the table they
point it at entry `p - 1`, set that entry's enabled flag, and leave that entry's
value, frequency and call log, every other entry, the other pointer and
direction, speed and `paused` as they were. -/
theorem binding_frame (p : Nat) (w : Firmware n) :
    (p = 0 →
      set_enable_output p w = some { w with tool := { w.tool with enable_output := none } } ∧
      set_pwm_output p w = some { w with tool := { w.tool with pwm_output := none } }) ∧
    (∀ hrange : p - 1 < n, p ≠ 0 →
      (∃ w1, set_enable_output p w = some w1 ∧
        w1.tool = { w.tool with enable_output := some ⟨p - 1, hrange⟩ } ∧
        (w1.d_out ⟨p - 1, hrange⟩).enabled = true ∧
        (w1.d_out ⟨p - 1, hrange⟩).value = (w.d_out ⟨p - 1, hrange⟩).value ∧
        (w1.d_out ⟨p - 1, hrange⟩).frequency = (w.d_out ⟨p - 1, hrange⟩).frequency ∧
        (w1.d_out ⟨p - 1, hrange⟩).setValueLog = (w.d_out ⟨p - 1, hrange⟩).setValueLog ∧
        ∀ q : Fin n, q ≠ ⟨p - 1, hrange⟩ → w1.d_out q = w.d_out q) ∧
      (∃ w2, set_pwm_output p w = some w2 ∧
        w2.tool = { w.tool with pwm_output := some ⟨p - 1, hrange⟩ } ∧
        (w2.d_out ⟨p - 1, hrange⟩).enabled = true ∧
        (w2.d_out ⟨p - 1, hrange⟩).value = (w.d_out ⟨p - 1, hrange⟩).value ∧
        (w2.d_out ⟨p - 1, hrange⟩).frequency = (w.d_out ⟨p - 1, hrange⟩).frequency ∧
        (w2.d_out ⟨p - 1, hrange⟩).setValueLog = (w.d_out ⟨p - 1, hrange⟩).setValueLog ∧
        ∀ q : Fin n, q ≠ ⟨p - 1, hrange⟩ → w2.d_out q = w.d_out q)) := by
  constructor
  · intro h0
    simp [set_enable_output, set_pwm_output, h0]
  · intro hrange hp
    constructor
    · refine ⟨_, set_enable_output_bound p w hp hrange, rfl, ?_, ?_, ?_, ?_, ?_⟩
      · simp [gpioDigitalOutput.setEnabled]
      · simp [gpioDigitalOutput.setEnabled]
      · simp [gpioDigitalOutput.setEnabled]
      · simp [gpioDigitalOutput.setEnabled]
      · intro q hq
        simp [Function.update_noteq hq]
    · refine ⟨_, set_pwm_output_bound p w hp hrange, rfl, ?_, ?_, ?_, ?_, ?_⟩
      · simp [gpioDigitalOutput.setEnabled]
      · simp [gpioDigitalOutput.setEnabled]
      · simp [gpioDigitalOutput.setEnabled]
      · simp [gpioDigitalOutput.setEnabled]
      · intro q hq
        simp [Function.update_noteq hq]

/-- C14 at a running tool over two idle outputs: pin 0 unbinds, pin 2 binds
entry 1 and enables it, entry 0 is untouched. -/
theorem binding_frame_witness :
    set_enable_output 0 example_running_unbound
      = some { example_running_unbound with
          tool := { example_running_unbound.tool with enable_output := none } } ∧
    ∃ w1, set_enable_output 2 example_running_unbound = some w1 ∧
      w1.tool = { example_running_unbound.tool with enable_output := some ⟨2 - 1, by decide⟩ } ∧
      (w1.d_out ⟨2 - 1, by decide⟩).enabled = true ∧
      (w1.d_out ⟨2 - 1, by decide⟩).value
        = (example_running_unbound.d_out ⟨2 - 1, by decide⟩).value ∧
      (w1.d_out ⟨2 - 1, by decide⟩).frequency
        = (example_running_unbound.d_out ⟨2 - 1, by decide⟩).frequency ∧
      (w1.d_out ⟨2 - 1, by decide⟩).setValueLog
        = (example_running_unbound.d_out ⟨2 - 1, by decide⟩).setValueLog ∧
      ∀ q : Fin 2, q ≠ ⟨2 - 1, by decide⟩ → w1.d_out q = example_running_unbound.d_out q :=
  ⟨((binding_frame 0 example_running_unbound).1 rfl).1,
    ((binding_frame 2 example_running_unbound).2 (by decide) (by decide)).1⟩

/-! ## Frequency -/

/-- C15: with the PWM output unbound, `get_frequency()` returns 0.0 and
`set_frequency(f)` changes nothing; with it bound to entry `p`,
`set_frequency(f)` is `setFrequency(f)` on entry `p` and touches no other entry
and no tool member, `get_frequency()` returns the frequency of entry `p`, and
`get_frequency()` after `set_frequency(f)` returns `f`. -/
theorem frequency_forwarding (f : float) (w : Firmware n) :
    (w.tool.pwm_output = none →
      (get_frequency w).1 = float.finite 0 ∧ (get_frequency w).2 = w ∧
      set_frequency f w = w) ∧
    (∀ p : Fin n, w.tool.pwm_output = some p →
      (set_frequency f w).tool = w.tool ∧
      (set_frequency f w).d_out p = (w.d_out p).setFrequency f ∧
      (∀ q : Fin n, q ≠ p → (set_frequency f w).d_out q = w.d_out q) ∧
      (get_frequency w).1 = (w.d_out p).getFrequency ∧
      (get_frequency w).2 = w ∧
      (get_frequency (set_frequency f w)).1 = f) := by
  constructor
  · intro h
    simp [get_frequency, set_frequency, h, float.zero]
  · intro p h
    refine ⟨?_, ?_, ?_, ?_, ?_, ?_⟩
    · simp [set_frequency, h]
    · simp [set_frequency, h]
    · intro q hq
      simp [set_frequency, h, Function.update_noteq hq]
    · simp [get_frequency, h]
    · simp [get_frequency, h]
    · simp [get_frequency, set_frequency, h, gpioDigitalOutput.setFrequency,
        gpioDigitalOutput.getFrequency]

/-- C15 at the two-output example, whose PWM output is entry 0, and at a tool
with no PWM output. -/
theorem frequency_forwarding_witness :
    (get_frequency (set_frequency (float.finite 5000) example_initial)).1 = float.finite 5000 ∧
    (get_frequency example_unbound).1 = float.finite 0 ∧
    set_frequency (float.finite 5000) example_unbound = example_unbound :=
  ⟨((frequency_forwarding (float.finite 5000) example_initial).2 0 rfl).2.2.2.2.2,
    ((frequency_forwarding (float.finite 5000) example_unbound).1 rfl).1,
    ((frequency_forwarding (float.finite 5000) example_unbound).1 rfl).2.2⟩

/-! ## Construction -/

/-- C16, evaluated: for every pair of pin numbers the constructor stores the two
pins and leaves both pointers null, but it assigns neither `direction` nor
`paused`: they are what the storage held. From zeroed storage the tool is OFF
and not paused, so `is_on()` and `ready_to_resume()` are false; from storage that
held CW and `paused` true, `is_on()` is true and `ready_to_resume()` is true
under a gate that reports true. -/
theorem constructor_leaves_members_unset (m pwm_pin enable_pin : Nat)
    (d : Fin m → gpioDigitalOutput) :
    (∀ (direction0 : spDirection) (speed0 speed_min0 speed_max0 : float) (paused0 : Bool),
      (LaserTool.LaserTool pwm_pin enable_pin direction0 speed0 speed_min0 speed_max0 paused0 :
        LaserTool m).pwm_output = none ∧
      (LaserTool.LaserTool pwm_pin enable_pin direction0 speed0 speed_min0 speed_max0 paused0 :
        LaserTool m).enable_output = none ∧
      (LaserTool.LaserTool pwm_pin enable_pin direction0 speed0 speed_min0 speed_max0 paused0 :
        LaserTool m).pwm_output_num = pwm_pin ∧
      (LaserTool.LaserTool pwm_pin enable_pin direction0 speed0 speed_min0 speed_max0 paused0 :
        LaserTool m).enable_output_num = enable_pin ∧
      (LaserTool.LaserTool pwm_pin enable_pin direction0 speed0 speed_min0 speed_max0 paused0 :
        LaserTool m).direction = direction0 ∧
      (LaserTool.LaserTool pwm_pin enable_pin direction0 speed0 speed_min0 speed_max0 paused0 :
        LaserTool m).paused = paused0) ∧
    ((is_on { tool := LaserTool.LaserTool pwm_pin enable_pin SPINDLE_OFF float.zero float.zero
                float.zero false
              d_out := d }).1 = false ∧
      ∀ g : Bool,
        (ready_to_resume g { tool := LaserTool.LaserTool pwm_pin enable_pin SPINDLE_OFF float.zero
                               float.zero float.zero false
                             d_out := d }).1 = false) ∧
    ((is_on { tool := LaserTool.LaserTool pwm_pin enable_pin SPINDLE_CW (float.finite 500)
                float.zero float.zero true
              d_out := d }).1 = true ∧
      (ready_to_resume true { tool := LaserTool.LaserTool pwm_pin enable_pin SPINDLE_CW
                                (float.finite 500) float.zero float.zero true
                              d_out := d }).1 = true) := by
  refine ⟨fun _ _ _ _ _ => ⟨rfl, rfl, rfl, rfl, rfl, rfl⟩, ⟨rfl, fun g => ?_⟩, rfl, rfl⟩
  simp [ready_to_resume, LaserTool.LaserTool]

/-! ## The safety gate -/

/-- C17: the answer of the safety gate reaches only `ready_to_resume()`: run
under two answers `g1` and `g2`, each of `pause()`, `resume()`, `stop()`,
`engage(gm)`, `set_enable_output(p)` and `set_pwm_output(p)` gives the same
result, tool state and outputs alike; `resume()` on a paused tool whose
direction is not OFF drives the bound enable output true while the gate reports
false; and on a paused tool `ready_to_resume()` does tell the two answers
apart. -/
theorem safety_gate_only_in_ready_to_resume (EPSILON : ℚ) (g1 g2 : Bool) (w : Firmware n) :
    (∀ m : Method, m ≠ Method.ready_to_resume →
      m.run EPSILON g1 w = m.run EPSILON g2 w) ∧
    (∀ p : Fin n, w.tool.paused = true → w.tool.direction ≠ SPINDLE_OFF →
      w.tool.enable_output = some p →
      Method.resume.run EPSILON false w = some (none, resume w) ∧
      ((resume w).d_out p).value = true ∧ (resume w).tool.paused = false) ∧
    (w.tool.paused = true →
      (Method.ready_to_resume.run EPSILON g1 w = Method.ready_to_resume.run EPSILON g2 w
        ↔ g1 = g2)) := by
  refine ⟨?_, ?_, ?_⟩
  · intro m hm
    cases m with
    | ready_to_resume => exact absurd rfl hm
    | _ => rfl
  · intro p hpaused hdir hbound
    have hr : resume w = complete_change { w with tool := { w.tool with paused := false } } := by
      unfold resume
      rw [if_neg (by simp [hpaused])]
    refine ⟨rfl, ?_, ?_⟩
    · rw [hr, complete_change_d_out (p := p)]
      · cases hd : w.tool.direction
        · exact absurd hd hdir
        · simp [gpioDigitalOutput.setValue, armed, hd]
        · simp [gpioDigitalOutput.setValue, armed, hd]
      · exact hbound
    · rw [hr, complete_change_tool]
  · intro hpaused
    simp [Method.run, ready_to_resume, hpaused]

/-- C17 at a paused tool, direction CW, with its enable output bound: the gate
reports false and `resume()` still drives the enable output true. -/
theorem safety_gate_only_in_ready_to_resume_witness :
    Method.resume.run (1 / 100000) false example_paused_high
      = some (none, resume example_paused_high) ∧
    ((resume example_paused_high).d_out 1).value = true ∧
    (resume example_paused_high).tool.paused = false :=
  (safety_gate_only_in_ready_to_resume (1 / 100000) true false example_paused_high).2.1 1 rfl
    (by decide) rfl

/-! ## The PWM output -/

lemma complete_change_d_out_cases (w : Firmware n) :
    (complete_change w).d_out = w.d_out ∨
    ∃ p v, w.tool.enable_output = some p ∧
      (complete_change w).d_out = Function.update w.d_out p ((w.d_out p).setValue v) := by
  cases h : w.tool.enable_output with
  | none => exact Or.inl (by rw [complete_change_unbound w h])
  | some p => exact Or.inr ⟨p, armed w, rfl, complete_change_d_out w p h⟩

lemma call_d_out_cases (EPSILON : ℚ) (c : Call) (w : Firmware n) :
    (c.apply EPSILON w).d_out = w.d_out ∨
    ∃ p v, w.tool.enable_output = some p ∧
      (c.apply EPSILON w).d_out = Function.update w.d_out p ((w.d_out p).setValue v) := by
  cases c with
  | pause =>
    rw [show Call.pause.apply EPSILON w = pause w from rfl]
    unfold pause
    split
    · exact Or.inl rfl
    · exact complete_change_d_out_cases { w with tool := { w.tool with paused := true } }
  | resume =>
    rw [show Call.resume.apply EPSILON w = resume w from rfl]
    unfold resume
    split
    · exact Or.inl rfl
    · exact complete_change_d_out_cases { w with tool := { w.tool with paused := false } }
  | stop =>
    rw [show Call.stop.apply EPSILON w = stop w from rfl]
    unfold stop
    exact complete_change_d_out_cases
      { w with tool := { w.tool with paused := false, speed := float.zero,
                                     direction := SPINDLE_OFF } }
  | engage gm =>
    rw [show (Call.engage gm).apply EPSILON w = engage EPSILON w gm from rfl]
    unfold engage
    split
    · exact Or.inl rfl
    · exact complete_change_d_out_cases
        { w with tool := { w.tool with speed := gm.spindle_speed,
                                       direction := gm.spindle_direction } }

lemma call_tool_frame (EPSILON : ℚ) (c : Call) (w : Firmware n) :
    (c.apply EPSILON w).tool.pwm_output = w.tool.pwm_output ∧
    (c.apply EPSILON w).tool.enable_output = w.tool.enable_output ∧
    (c.apply EPSILON w).tool.pwm_output_num = w.tool.pwm_output_num ∧
    (c.apply EPSILON w).tool.enable_output_num = w.tool.enable_output_num ∧
    (c.apply EPSILON w).tool.speed_min = w.tool.speed_min ∧
    (c.apply EPSILON w).tool.speed_max = w.tool.speed_max := by
  cases c with
  | pause =>
    show (pause w).tool.pwm_output = _ ∧ (pause w).tool.enable_output = _ ∧
      (pause w).tool.pwm_output_num = _ ∧ (pause w).tool.enable_output_num = _ ∧
      (pause w).tool.speed_min = _ ∧ (pause w).tool.speed_max = _
    unfold pause
    split
    · exact ⟨rfl, rfl, rfl, rfl, rfl, rfl⟩
    · rw [complete_change_tool]
      exact ⟨rfl, rfl, rfl, rfl, rfl, rfl⟩
  | resume =>
    show (resume w).tool.pwm_output = _ ∧ (resume w).tool.enable_output = _ ∧
      (resume w).tool.pwm_output_num = _ ∧ (resume w).tool.enable_output_num = _ ∧
      (resume w).tool.speed_min = _ ∧ (resume w).tool.speed_max = _
    unfold resume
    split
    · exact ⟨rfl, rfl, rfl, rfl, rfl, rfl⟩
    · rw [complete_change_tool]
      exact ⟨rfl, rfl, rfl, rfl, rfl, rfl⟩
  | stop =>
    show (stop w).tool.pwm_output = _ ∧ (stop w).tool.enable_output = _ ∧
      (stop w).tool.pwm_output_num = _ ∧ (stop w).tool.enable_output_num = _ ∧
      (stop w).tool.speed_min = _ ∧ (stop w).tool.speed_max = _
    unfold stop
    rw [complete_change_tool]
    exact ⟨rfl, rfl, rfl, rfl, rfl, rfl⟩
  | engage gm =>
    show (engage EPSILON w gm).tool.pwm_output = _ ∧ (engage EPSILON w gm).tool.enable_output = _ ∧
      (engage EPSILON w gm).tool.pwm_output_num = _ ∧
      (engage EPSILON w gm).tool.enable_output_num = _ ∧
      (engage EPSILON w gm).tool.speed_min = _ ∧ (engage EPSILON w gm).tool.speed_max = _
    unfold engage
    split
    · exact ⟨rfl, rfl, rfl, rfl, rfl, rfl⟩
    · rw [complete_change_tool]
      exact ⟨rfl, rfl, rfl, rfl, rfl, rfl⟩

/-- C18, counterexample: when the PWM pin and the enable pin are the same pin,
both outputs are bound and are one output: `engage({CW, 500})` issues
`setValue(true)` to it, so the value of the bound PWM output changes from false
to true. -/
theorem calls_leave_pwm_output_counterexample :
    example_aliased.tool.pwm_output = some 0 ∧
    example_aliased.tool.enable_output = some 0 ∧
    (example_aliased.d_out 0).value = false ∧
    ((engage (1 / 100000) example_aliased gm_cw_500).d_out 0).value = true ∧
    ((engage (1 / 100000) example_aliased gm_cw_500).d_out 0).setValueLog = [true] := by
  refine ⟨rfl, rfl, rfl, by decide, by decide⟩

/-- C18, amended: in a state in which both outputs are bound, each of `pause()`,
`resume()`, `stop()` and `engage(gm)` leaves the enabled flag and the frequency
of the bound PWM output unchanged; when the PWM output and the enable output
are different table entries it leaves the PWM output unchanged altogether, its
value and its log of `setValue` calls included. -/
theorem calls_leave_pwm_output (EPSILON : ℚ) (w : Firmware n) (p q : Fin n)
    (henable : w.tool.enable_output = some p) (hpwm : w.tool.pwm_output = some q)
    (c : Call) :
    (c.apply EPSILON w).tool.pwm_output = some q ∧
    ((c.apply EPSILON w).d_out q).enabled = (w.d_out q).enabled ∧
    ((c.apply EPSILON w).d_out q).frequency = (w.d_out q).frequency ∧
    (p ≠ q → (c.apply EPSILON w).d_out q = w.d_out q) := by
  refine ⟨by rw [(call_tool_frame EPSILON c w).1, hpwm], ?_⟩
  rcases call_d_out_cases EPSILON c w with h | ⟨p1, v, hp1, h⟩
  · rw [h]
    exact ⟨rfl, rfl, fun _ => rfl⟩
  · have hpp : p1 = p := by
      rw [henable] at hp1
      exact (Option.some.inj hp1).symm
    subst hpp
    rw [h]
    by_cases hq : q = p1
    · subst hq
      refine ⟨?_, ?_, fun hne => absurd rfl hne⟩
      · simp [gpioDigitalOutput.setValue]
      · simp [gpioDigitalOutput.setValue]
    · rw [Function.update_noteq hq]
      exact ⟨rfl, rfl, fun _ => rfl⟩

/-- C18 as amended, at the two-output example (PWM output entry 0, enable output
entry 1) engaged clockwise at speed 500. -/
theorem calls_leave_pwm_output_witness :
    ((Call.engage gm_cw_500).apply (1 / 100000) example_initial).tool.pwm_output = some 0 ∧
    ((Call.engage gm_cw_500).apply (1 / 100000) example_initial).d_out 0
      = example_initial.d_out 0 :=
  ⟨(calls_leave_pwm_output (1 / 100000) example_initial 1 0 rfl rfl (Call.engage gm_cw_500)).1,
    (calls_leave_pwm_output (1 / 100000) example_initial 1 0 rfl rfl
      (Call.engage gm_cw_500)).2.2.2 (by decide)⟩

/-! ## The no-op test of `engage` -/

/-- C19: the no-op test of `engage` is exact on the direction and uses `fp_EQ`
on the speed. When the direction of `gm` equals the stored one and the speeds
are within the tolerance as `fp_EQ` computes it, `engage(gm)` changes nothing:
the tool and every output are as before, and `get_speed()` still returns the
old speed, not that of `gm`. When the direction of `gm` differs from the stored
one, `engage(gm)` stores the direction and the speed of `gm`, whatever the
speeds are and whatever `fp_EQ` says of them. -/
theorem engage_noop_test (EPSILON : ℚ) (w : Firmware n) (gm : GCodeState_t) :
    (w.tool.direction = gm.spindle_direction →
      fp_EQ EPSILON w.tool.speed gm.spindle_speed = true →
      engage EPSILON w gm = w ∧
      (get_speed (engage EPSILON w gm)).1 = w.tool.speed) ∧
    (w.tool.direction ≠ gm.spindle_direction →
      (engage EPSILON w gm).tool.direction = gm.spindle_direction ∧
      (engage EPSILON w gm).tool.speed = gm.spindle_speed) := by
  constructor
  · intro hd hs
    have hw : engage EPSILON w gm = w := by
      unfold engage
      rw [if_pos (by simp [hd, hs])]
    refine ⟨hw, ?_⟩
    rw [hw]
    rfl
  · intro hd
    unfold engage
    rw [if_neg (by simp [hd]), complete_change_tool]
    exact ⟨rfl, rfl⟩

/-- C19 with tolerance 1/100000, at a running tool at speed 1 engaged at the same
direction and the unequal speed 1 + 2^-20 (two binary32 values whose difference,
2^-20, is exact in binary32): nothing changes and the speed read back is 1. The
initial example, direction OFF, engaged clockwise stores the new direction and
speed. -/
theorem engage_noop_test_witness :
    (example_running_unit.tool.speed ≠ gm_cw_unit_near.spindle_speed ∧
      engage (1 / 100000) example_running_unit gm_cw_unit_near = example_running_unit ∧
      (get_speed (engage (1 / 100000) example_running_unit gm_cw_unit_near)).1
        = float.finite 1) ∧
    ((engage (1 / 100000) example_initial gm_cw_500).tool.direction = SPINDLE_CW ∧
      (engage (1 / 100000) example_initial gm_cw_500).tool.speed = float.finite 500) :=
  ⟨⟨by
      intro h
      injection h with h
      norm_num at h,
    (engage_noop_test (1 / 100000) example_running_unit gm_cw_unit_near).1 rfl
      (by
        simp only [example_running_unit, gm_cw_unit_near, fp_EQ, float.sub, float.fabs,
          float.lt]
        norm_num)⟩,
    (engage_noop_test (1 / 100000) example_initial gm_cw_500).2 (by decide)⟩

/-! ## Pause followed by resume -/

lemma pause_resume_keep_direction_speed (w : Firmware n) :
    (pause w).tool.direction = w.tool.direction ∧ (pause w).tool.speed = w.tool.speed ∧
    (resume w).tool.direction = w.tool.direction ∧ (resume w).tool.speed = w.tool.speed := by
  refine ⟨?_, ?_, ?_, ?_⟩
  · unfold pause
    split
    · rfl
    · rw [complete_change_tool]
  · unfold pause
    split
    · rfl
    · rw [complete_change_tool]
  · unfold resume
    split
    · rfl
    · rw [complete_change_tool]
  · unfold resume
    split
    · rfl
    · rw [complete_change_tool]

/-- C20: on a tool that is not paused and whose bound enable output shows
`direction != OFF`, `pause()` followed by `resume()` gives back the tool state
it started from (direction, speed, speed limits, `paused` false, pin numbers
and both bindings) and the enable output's value, enabled flag and frequency,
and leaves every other output as it was; on every state, `pause()` alone and
`resume()` alone change neither direction nor speed. -/
theorem pause_resume_roundtrip (w : Firmware n) (p : Fin n)
    (hnot : w.tool.paused = false) (hbound : w.tool.enable_output = some p)
    (hvalue : (w.d_out p).value = (w.tool.direction != SPINDLE_OFF)) :
    (resume (pause w)).tool = w.tool ∧
    ((resume (pause w)).d_out p).value = (w.d_out p).value ∧
    ((resume (pause w)).d_out p).enabled = (w.d_out p).enabled ∧
    ((resume (pause w)).d_out p).frequency = (w.d_out p).frequency ∧
    (∀ q : Fin n, q ≠ p → (resume (pause w)).d_out q = w.d_out q) ∧
    (∀ w0 : Firmware n,
      (pause w0).tool.direction = w0.tool.direction ∧ (pause w0).tool.speed = w0.tool.speed ∧
      (resume w0).tool.direction = w0.tool.direction ∧
      (resume w0).tool.speed = w0.tool.speed) := by
  have hp1 : pause w = complete_change { w with tool := { w.tool with paused := true } } := by
    unfold pause
    rw [if_neg (by simp [hnot])]
  have ht1 : (pause w).tool = { w.tool with paused := true } := by
    rw [hp1, complete_change_tool]
  have hd1 : (pause w).d_out = Function.update w.d_out p ((w.d_out p).setValue false) := by
    rw [hp1, complete_change_d_out (p := p)]
    · simp [armed]
    · exact hbound
  have hr : resume (pause w)
      = complete_change { pause w with tool := { (pause w).tool with paused := false } } := by
    unfold resume
    rw [if_neg (by simp [ht1])]
  have ht2 : (resume (pause w)).tool = w.tool := by
    rw [hr, complete_change_tool]
    simp only [ht1]
    rw [← hnot]
  have hd2 : (resume (pause w)).d_out
      = Function.update (pause w).d_out p
          (((pause w).d_out p).setValue (w.tool.direction != SPINDLE_OFF)) := by
    rw [hr, complete_change_d_out (p := p)]
    · simp [armed, ht1]
    · simp [ht1, hbound]
  refine ⟨ht2, ?_, ?_, ?_, ?_, pause_resume_keep_direction_speed⟩
  · rw [hd2, hvalue]
    simp [gpioDigitalOutput.setValue]
  · rw [hd2, hd1]
    simp [gpioDigitalOutput.setValue]
  · rw [hd2, hd1]
    simp [gpioDigitalOutput.setValue]
  · intro q hq
    rw [hd2, hd1, Function.update_noteq hq, Function.update_noteq hq]

/-- C20 at the running example: direction CW, speed 500, enable output high. -/
theorem pause_resume_roundtrip_witness :
    (resume (pause example_running)).tool = example_running.tool ∧
    ((resume (pause example_running)).d_out 1).value = (example_running.d_out 1).value :=
  ⟨(pause_resume_roundtrip example_running 1 rfl rfl rfl).1,
    (pause_resume_roundtrip example_running 1 rfl rfl rfl).2.1⟩

end LaserToolhead
